import Mathlib

/-
Verification of the EventLogger Baseline & Anomaly Scoring Engine
(src/IDS.py, with src/activity_generator.py as an alternative revision).

Shallow embedding conventions:
  * Python dicts are association lists (List (String × _)); Python dicts
    preserve insertion order, and lookup finds the (unique) key.
  * Numbers are modelled exactly: ints as ℤ, float arithmetic idealized as
    exact arithmetic over ℚ (where the source stays rational) or ℝ (where
    a square root appears).  The builtin round is round-half-to-even.
  * Code that can raise (ZeroDivisionError, KeyError,
    statistics.StatisticsError) returns Option, with none for the raise.
  * The DailyRecord dict {Day: d, name1: v1, ...} is modelled as the
    structure {day, values}; the scorer and the analyser skip the Day key,
    which the structure represents by keeping day outside values.
-/

namespace IDS

/-- Event kind tag from the events file: C = continuous, D = discrete. -/
inductive EType where
  | C : EType
  | D : EType
deriving DecidableEq, Repr

/-- One entry of the dictionary returned by parse_events (IDS.py lines 51-66):
Type, Min, Max, Weight.  Min and Max are Option because the surrounding code
(validate_consistency) tests them against None, even though parse_events
never actually stores None. -/
structure EventDef where
  typ : EType
  minv : Option ℚ
  maxv : Option ℚ
  weight : ℤ
deriving DecidableEq, Repr

/-- One entry of the dictionary returned by parse_stats: Mean, Std_dev. -/
structure StatEntry where
  mean : ℚ
  std_dev : ℚ
deriving DecidableEq, Repr

/-- One entry of the merged dictionary built by cal_basestats:
Mean, Std_dev, Min, Max, Weight, Type. -/
structure BaseEntry where
  mean : ℚ
  std_dev : ℚ
  minv : Option ℚ
  maxv : Option ℚ
  weight : ℤ
  typ : EType
deriving DecidableEq, Repr

/-- One generated daily record: the dict {Day: day, event1: v1, ...} built by
generate_event_data, with the Day key separated out as the day field.
K is the numeric type of the stored values (ℝ for generated data, since pool
z-scores are irrational; concrete hand-written records can use ℚ). -/
structure DailyRec (K : Type) where
  day : ℤ
  values : List (String × K)
deriving DecidableEq

/-- One entry of the per-event statistics dictionary built by analysis_events
(keys Mean, Std Dev, Weight); also the shape cal_dailycounter reads from its
event_stats argument. -/
structure LiveEntry (K : Type) where
  mean : K
  std_dev : K
  weight : ℤ
deriving DecidableEq

/-- Day status assigned by cal_dailycounter: the source strings are
the literal Okay (called Normal in the specification) and Flagged. -/
inductive Status where
  | Okay : Status
  | Flagged : Status
deriving DecidableEq, Repr

/-- One entry of the daily_anomaly list built by cal_dailycounter:
{Day, per-event scores, Total Anomally, Status}. -/
structure AnomalyRec (K : Type) where
  day : ℤ
  scores : List (String × K)
  total : K
  status : Status
deriving DecidableEq

/-- The dictionary entry parse_events (IDS.py lines 51-66) builds for one
line of the events file.  min_val and max_val are none when the text field is
empty (a falsy string); the source then stores the NUMBER 0 - it never stores
None, despite its own docstring saying None marks an unspecified bound.  The
int()/float() distinction of the two branches is immaterial over ℚ. -/
def parse_event_entry (event_type : EType) (min_val max_val : Option ℚ)
    (weight : ℤ) : EventDef :=
  { typ := event_type
    minv := some (min_val.getD 0)
    maxv := some (max_val.getD 0)
    weight := weight }

/-- validate_consistency (IDS.py lines 157-206): first an aggregate name-set
mismatch message, then, for each event present in both files whose Type is C
and whose Min and Max are both not None, a per-event message when the mean
falls outside [Min, Max]. -/
def validate_consistency (events : List (String × EventDef))
    (stats : List (String × StatEntry)) : List String :=
  (if (events.map Prod.fst).toFinset = (stats.map Prod.fst).toFinset then
      ([] : List String)
    else ["Mismatch in event names between Events and Stats files."])
  ++ events.filterMap (fun p =>
      match stats.lookup p.1 with
      | none => none
      | some st =>
        match p.2.typ, p.2.minv, p.2.maxv with
        | EType.C, some mn, some mx =>
          if st.mean < mn ∨ st.mean > mx then
            some (p.1 ++ ": mean is outside of specified min/max range.")
          else none
        | _, _, _ => none)

/-- cal_basestats (IDS.py lines 208-235), returned dictionary: for each event
of the stats file, in stats iteration order, the merged entry when the name is
also in the events file, otherwise the event is skipped. -/
def cal_basestats (events : List (String × EventDef))
    (stats : List (String × StatEntry)) : List (String × BaseEntry) :=
  stats.filterMap (fun p =>
    match events.lookup p.1 with
    | some e =>
      some (p.1,
        { mean := p.2.mean
          std_dev := p.2.std_dev
          minv := e.minv
          maxv := e.maxv
          weight := e.weight
          typ := e.typ })
    | none => none)

/-- The warnings printed by cal_basestats while merging: one per stats entry
whose name is absent from the events dictionary.  Events-only names are never
visited by the loop, so no warning is printed for them. -/
def cal_basestats_warnings (events : List (String × EventDef))
    (stats : List (String × StatEntry)) : List String :=
  stats.filterMap (fun p =>
    match events.lookup p.1 with
    | some _ => none
    | none => some ("Warning: " ++ p.1 ++ " found in stats but not in events."))

/-- cal_threshold (IDS.py lines 120-146): loop-sum the Weight field of every
entry, then double.  getWeight models the duck-typed ['Weight'] access (the
source calls this both on basestats and on live event_stats). -/
def cal_threshold {α : Type} (getWeight : α → ℤ)
    (stats : List (String × α)) : ℤ :=
  (stats.foldl (fun acc p => acc + getWeight p.2) 0) * 2

/-- statistics.mean: sum divided by length (exact: the statistics module
computes with exact fractions). -/
def listMean {K : Type} [Field K] (xs : List K) : K :=
  xs.sum / (xs.length : K)

/-- The sample variance underlying statistics.stdev: squared deviations from
the mean divided by (n - 1). -/
def sampleVar {K : Type} [Field K] (xs : List K) : K :=
  ((xs.map (fun x => (x - listMean xs) ^ 2)).sum) / ((xs.length : K) - 1)

/-- get_mean_std (IDS.py lines 147-156): statistics.mean and statistics.stdev
of a list.  statistics.stdev raises StatisticsError (the specification error
kind InsufficientSampleSize) for fewer than 2 data points (statistics.mean
already raises for 0), so the pair is only defined for length at least 2.
stdev is the square root of the sample variance. -/
noncomputable def get_mean_std (vals : List ℚ) : Option (ℚ × ℝ) :=
  if 2 ≤ vals.length then
    some (listMean vals, Real.sqrt ((sampleVar vals : ℚ) : ℝ))
  else none

/-- Python round to the nearest integer: round half to even. -/
def roundEven {K : Type} [LinearOrderedField K] [FloorRing K] (x : K) : ℤ :=
  if Int.fract x = 1 / 2 then
    (if Even ⌊x⌋ then ⌊x⌋ else ⌊x⌋ + 1)
  else round x

/-- Python round(x, 2): round to the nearest hundredth, half to even. -/
def round2 {K : Type} [LinearOrderedField K] [FloorRing K] (x : K) : K :=
  ((roundEven (x * 100) : ℤ) : K) / 100

/-- The value generate_event_data computes for one event on one day
(IDS.py lines 306-314): z-score of the day raw pool sample against the pool
statistics, mapped affinely onto the event mean/std_dev; continuous values
are rounded to 2 decimal places, discrete values to the nearest integer.
Min and Max of the entry are read (lines 300-301) but never used. -/
noncomputable def eventValue (e : BaseEntry) (cont_mean : ℚ) (cont_std : ℝ)
    (disc_mean : ℚ) (disc_std : ℝ) (rawc rawd : ℚ) : ℝ :=
  if e.typ = EType.C then
    round2 ((((rawc : ℝ) - (cont_mean : ℝ)) / cont_std) * (e.std_dev : ℝ)
      + (e.mean : ℝ))
  else
    ((roundEven ((((rawd : ℝ) - (disc_mean : ℝ)) / disc_std) * (e.std_dev : ℝ)
      + (e.mean : ℝ)) : ℤ) : ℝ)

/-- generate_event_data (IDS.py lines 264-334).  The raw random pools are
passed in as streams randD, randC (the source draws them from
random.randint on the module-level generator: total_num_days draws per pool,
made up front before the day loop); the pool statistics are computed once by
get_mean_std, whose failure for fewer than 2 samples aborts the
whole run (modelled none).  Each day record carries the Day number and one
value per basestats event, in basestats order.  The threshold/alert printing
of lines 320-325 is a console side channel that does not affect the returned
log, and is omitted. -/
noncomputable def generate_event_data (basestats : List (String × BaseEntry))
    (randD randC : ℕ → ℤ) (total_num_days : ℕ) :
    Option (List (DailyRec ℝ)) :=
  let random_discrete_vals : List ℚ :=
    (List.range total_num_days).map (fun i => ((randD i : ℤ) : ℚ))
  let random_cont_vals : List ℚ :=
    (List.range total_num_days).map (fun i => ((randC i : ℤ) : ℚ))
  match get_mean_std random_cont_vals, get_mean_std random_discrete_vals with
  | some (cont_mean, cont_std), some (disc_mean, disc_std) =>
    some ((List.range total_num_days).map (fun d =>
      { day := ((d + 1 : ℕ) : ℤ)
        values := basestats.map (fun p =>
          (p.1, eventValue p.2 cont_mean cont_std disc_mean disc_std
            (random_cont_vals.getD d 0) (random_discrete_vals.getD d 0))) }))
  | _, _ => none

/-- Option-valued map over a list, failing as soon as one element fails:
the shape of every loop in the source that can raise mid-iteration. -/
def mapOpt {α β : Type} (f : α → Option β) : List α → Option (List β)
  | [] => some []
  | a :: rest =>
    match f a, mapOpt f rest with
    | some b, some bs => some (b :: bs)
    | _, _ => none

/-- The five event names hard-coded into the event_data dictionary of
analysis_events (IDS.py lines 371-377). -/
def fixed_event_names : List String :=
  ["Logins", "Time online", "Emails sent", "Emails opened", "Emails deleted"]

/-- The column of values analysis_events collects for one event name:
daily_log[event_name] for each day, a KeyError (none) when a record does not
contain the name. -/
def collectVals {K : Type} (n : String) :
    List (DailyRec K) → Option (List K)
  | [] => some []
  | rec :: rest =>
    match rec.values.lookup n, collectVals n rest with
    | some v, some vs => some (v :: vs)
    | _, _ => none

/-- analysis_events (IDS.py lines 363-403).  Collects, for each of the five
hard-coded event names, the values across all days (KeyError - none - when a
day record lacks one of the names), then computes statistics.mean and
statistics.stdev per event (StatisticsError - none - for fewer than
2 days) with the stdev rounded to 2 decimals, and the Weight copied from
basestats (KeyError - none - when basestats lacks the name).  Also returns
daily_total: per day, the sum of all non-Day values of the record. -/
noncomputable def analysis_events (event_log : List (DailyRec ℝ))
    (basestats : List (String × BaseEntry)) :
    Option (List (String × LiveEntry ℝ) × List (ℤ × ℝ)) :=
  match mapOpt (fun n => (collectVals n event_log).map (fun vs => (n, vs)))
      fixed_event_names with
  | none => none
  | some cols =>
    match mapOpt (fun c =>
        if 2 ≤ c.2.length then
          match basestats.lookup c.1 with
          | some b =>
            some (c.1,
              { mean := listMean c.2
                std_dev := round2 (Real.sqrt (sampleVar c.2))
                weight := b.weight })
          | none => none
        else none) cols with
    | none => none
    | some event_stats =>
      some (event_stats,
        event_log.map (fun rec =>
          (rec.day,
            ((rec.values.filter (fun p => p.1 ≠ "Day")).map Prod.snd).sum)))

/-- The per-event anomaly score of cal_dailycounter (IDS.py line 482):
(abs(mean - value) / std_dev) * weight, a ZeroDivisionError (none) when
std_dev is 0 - the source has no guard here (the guard at line 321 belongs
to the generator print side channel, not to the scorer). -/
def scoreEvent {K : Type} [LinearOrderedField K] (st : LiveEntry K) (v : K) :
    Option K :=
  if st.std_dev = 0 then none
  else some (|st.mean - v| / st.std_dev * (st.weight : K))

/-- The inner loop of cal_dailycounter over one day record (already filtered
of the Day key): events present in event_stats are scored (a zero std_dev
raising - none), events absent from event_stats are skipped with a console
warning. -/
def scoreEvents {K : Type} [LinearOrderedField K]
    (event_stats : List (String × LiveEntry K)) :
    List (String × K) → Option (List (String × K))
  | [] => some []
  | p :: rest =>
    match event_stats.lookup p.1 with
    | none => scoreEvents event_stats rest
    | some st =>
      match scoreEvent st p.2, scoreEvents event_stats rest with
      | some s, some ss => some ((p.1, s) :: ss)
      | _, _ => none

/-- One iteration of the outer loop of cal_dailycounter: score every non-Day
event of the record, sum the scores, and set Status to Flagged exactly when
the sum strictly exceeds the threshold, else the initial Okay. -/
def scoreDay {K : Type} [LinearOrderedField K]
    (event_stats : List (String × LiveEntry K)) (threshold : K)
    (rec : DailyRec K) : Option (AnomalyRec K) :=
  match scoreEvents event_stats (rec.values.filter (fun p => p.1 ≠ "Day")) with
  | none => none
  | some scored =>
    some { day := rec.day
           scores := scored
           total := (scored.map Prod.snd).sum
           status :=
             if (scored.map Prod.snd).sum > threshold then Status.Flagged
             else Status.Okay }

/-- cal_dailycounter (IDS.py lines 448-501): one AnomalyRec per day record,
in log order; any ZeroDivisionError inside a day aborts the whole call. -/
def cal_dailycounter {K : Type} [LinearOrderedField K]
    (event_log : List (DailyRec K))
    (event_stats : List (String × LiveEntry K)) (threshold : K) :
    Option (List (AnomalyRec K)) :=
  mapOpt (scoreDay event_stats threshold) event_log

/-- Specification-side description of the per-day score list (spec 4.4): for
every non-Day event of the record that the statistics source knows, the pair
(name, abs(statMean - dailyValue) / statStdDev * weight). -/
def scoresSpec {K : Type} [LinearOrderedField K]
    (event_stats : List (String × LiveEntry K)) (rec : DailyRec K) :
    List (String × K) :=
  (rec.values.filter (fun p => p.1 ≠ "Day")).filterMap
    (fun p => (event_stats.lookup p.1).map
      (fun st => (p.1, |st.mean - p.2| / st.std_dev * (st.weight : K))))

/-- The column of observed values of one event across a log, as
analysis_events reads it (daily_log[event_name] per day; the default 0 is
never reached when every record contains the name). -/
def observedColumn (n : String) (log : List (DailyRec ℝ)) : List ℝ :=
  log.map (fun rec => (rec.values.lookup n).getD 0)

/-
Concrete instances used by the counterexamples and witnesses below.
-/

/-- Catalog entry A of the spec 8 scenario: C, min 0, max 10, weight 1. -/
def evDefA : EventDef :=
  { typ := EType.C, minv := some 0, maxv := some 10, weight := 1 }

/-- Catalog entry B: present only in the events file. -/
def evDefB : EventDef :=
  { typ := EType.D, minv := some 0, maxv := some 5, weight := 2 }

/-- Statistics entry A of the spec 8 scenario: mean 5, std dev 1. -/
def stA : StatEntry := { mean := 5, std_dev := 1 }

/-- Statistics entry C: present only in the stats file. -/
def stC : StatEntry := { mean := 3, std_dev := 2 }

/-- Events file with names A and B. -/
def eventsAB : List (String × EventDef) := [("A", evDefA), ("B", evDefB)]

/-- Stats file with names A and C. -/
def statsAC : List (String × StatEntry) := [("A", stA), ("C", stC)]

/-- The scoring source of the spec 8 scenario: A with mean 5, std dev 1,
weight 1 (threshold 2). -/
def liveA : LiveEntry ℚ := { mean := 5, std_dev := 1, weight := 1 }

/-- Statistics table holding only liveA. -/
def statsA : List (String × LiveEntry ℚ) := [("A", liveA)]

/-- A statistics entry with std dev 0 (a constant event). -/
def liveZ : LiveEntry ℚ := { mean := 5, std_dev := 0, weight := 1 }

/-- Statistics table holding only the constant entry liveZ. -/
def statsZ : List (String × LiveEntry ℚ) := [("A", liveZ)]

/-- Daily record {Day 1, A 8} of the spec 8 scenario. -/
def rec8 : DailyRec ℚ := { day := 1, values := [("A", 8)] }

/-- Daily record {Day 1, A 6} of the spec 8 scenario. -/
def rec6 : DailyRec ℚ := { day := 1, values := [("A", 6)] }

/-- The anomaly record cal_dailycounter builds for rec8 against statsA
with threshold 2: score 3, Flagged. -/
def anomaly8 : AnomalyRec ℚ :=
  { day := 1, scores := [("A", 3)], total := 3, status := Status.Flagged }

/-- The anomaly record cal_dailycounter builds for rec6 against statsA
with threshold 2: score 1, Okay. -/
def anomaly6 : AnomalyRec ℚ :=
  { day := 1, scores := [("A", 1)], total := 1, status := Status.Okay }

/-- A scoring source with nonzero std dev for the C1 witness. -/
def liveB : LiveEntry ℚ := { mean := 4, std_dev := 2, weight := 3 }

/-- Statistics table holding only liveB. -/
def statsB : List (String × LiveEntry ℚ) := [("B", liveB)]

/-- A statistics table whose only entry has std dev 0, for the C1 witness. -/
def statsB0 : List (String × LiveEntry ℚ) :=
  [("B", { mean := 4, std_dev := 0, weight := 3 })]

/-- Daily record {Day 2, B 9} for the C1 witness. -/
def recB : DailyRec ℚ := { day := 2, values := [("B", 9)] }

/-- Events file for C5: one continuous event X whose min and max text fields
are empty (unspecified bounds), weight 1. -/
def eventsX : List (String × EventDef) :=
  [("X", parse_event_entry EType.C none none 1)]

/-- Stats file for C5: X with mean 5, std dev 1. -/
def statsX : List (String × StatEntry) :=
  [("X", { mean := 5, std_dev := 1 })]

/-
Helper lemmas about association-list lookup, mapOpt and the loops.
-/

theorem lookup_mem {β : Type} {l : List (String × β)} {a : String} {b : β}
    (h : l.lookup a = some b) : (a, b) ∈ l := by
  induction l with
  | nil => simp [List.lookup] at h
  | cons p rest ih =>
    obtain ⟨k, v⟩ := p
    rw [List.lookup] at h
    by_cases hak : a = k
    · subst hak
      simp at h
      simp [h]
    · simp [beq_false_of_ne hak] at h
      exact List.mem_cons_of_mem _ (ih h)

theorem lookup_eq_none_iff {β : Type} (l : List (String × β)) (a : String) :
    l.lookup a = none ↔ a ∉ l.map Prod.fst := by
  induction l with
  | nil => simp [List.lookup]
  | cons p rest ih =>
    obtain ⟨k, v⟩ := p
    rw [List.lookup]
    by_cases hak : a = k
    · subst hak
      simp
    · simp [beq_false_of_ne hak, ih, hak]

theorem lookup_isSome_iff {β : Type} (l : List (String × β)) (a : String) :
    (l.lookup a).isSome = true ↔ a ∈ l.map Prod.fst := by
  rw [Option.isSome_iff_ne_none, ne_eq, lookup_eq_none_iff, not_not]

theorem lookup_eq_some_of_mem_nodup {β : Type} {l : List (String × β)}
    (hnd : (l.map Prod.fst).Nodup) {a : String} {b : β}
    (h : (a, b) ∈ l) : l.lookup a = some b := by
  induction l with
  | nil => simp at h
  | cons p rest ih =>
    obtain ⟨k, v⟩ := p
    simp only [List.map_cons, List.nodup_cons] at hnd
    rcases List.mem_cons.mp h with heq | hmem
    · obtain ⟨rfl, rfl⟩ := Prod.mk.injEq .. ▸ heq
      · simp [List.lookup]
    · have hak : a ≠ k := by
        rintro rfl
        exact hnd.1 (List.mem_map_of_mem Prod.fst hmem)
      rw [List.lookup]
      simp [beq_false_of_ne hak]
      exact ih hnd.2 hmem

theorem lookup_eq_of_perm {β : Type} {l₁ l₂ : List (String × β)}
    (h : l₁.Perm l₂) (hnd : (l₁.map Prod.fst).Nodup) (a : String) :
    l₁.lookup a = l₂.lookup a := by
  rcases hl : l₁.lookup a with _ | b
  · rw [lookup_eq_none_iff] at hl
    rw [eq_comm, lookup_eq_none_iff]
    exact fun hm => hl ((h.map Prod.fst).mem_iff.mpr hm)
  · have hm : (a, b) ∈ l₂ := h.mem_iff.mp (lookup_mem hl)
    exact (lookup_eq_some_of_mem_nodup (((h.map Prod.fst).nodup_iff).mp hnd) hm).symm

theorem lookup_map_pair {β γ : Type} (g : β → γ) (l : List (String × β))
    (a : String) :
    (l.map (fun p => (p.1, g p.2))).lookup a = (l.lookup a).map g := by
  induction l with
  | nil => rfl
  | cons p rest ih =>
    obtain ⟨k, v⟩ := p
    by_cases hak : a = k
    · subst hak
      simp [List.lookup]
    · simp [List.lookup, beq_false_of_ne hak, ih]

theorem foldl_add_eq_sum {α : Type} (f : α → ℤ) (l : List α) (acc : ℤ) :
    l.foldl (fun a x => a + f x) acc = acc + (l.map f).sum := by
  induction l generalizing acc with
  | nil => simp
  | cons x rest ih =>
    simp only [List.foldl_cons, List.map_cons, List.sum_cons, ih, add_assoc]

theorem mapOpt_eq_some_of_forall {α β : Type} {f : α → Option β} {g : α → β}
    {l : List α} (h : ∀ a ∈ l, f a = some (g a)) :
    mapOpt f l = some (l.map g) := by
  induction l with
  | nil => rfl
  | cons x rest ih =>
    rw [mapOpt, h x (by simp), ih (fun a ha => h a (by simp [ha]))]
    rfl

theorem mapOpt_eq_none_of_mem {α β : Type} {f : α → Option β} {l : List α}
    {a : α} (ha : a ∈ l) (hf : f a = none) : mapOpt f l = none := by
  induction l with
  | nil => simp at ha
  | cons x rest ih =>
    rw [mapOpt]
    rcases List.mem_cons.mp ha with rfl | hmem
    · cases hrest : mapOpt f rest <;> rw [hf]
    · cases hfx : f x <;> rw [ih hmem]

theorem mapOpt_length {α β : Type} {f : α → Option β} {l : List α}
    {bs : List β} (h : mapOpt f l = some bs) : bs.length = l.length := by
  induction l generalizing bs with
  | nil =>
    rw [mapOpt] at h
    cases h
    rfl
  | cons x rest ih =>
    rw [mapOpt] at h
    split at h
    · cases h
      simp only [List.length_cons]
      rw [ih (by assumption)]
    · exact absurd h (by simp)

theorem mapOpt_mem {α β : Type} {f : α → Option β} {l : List α}
    {bs : List β} (h : mapOpt f l = some bs) :
    ∀ b ∈ bs, ∃ a ∈ l, f a = some b := by
  induction l generalizing bs with
  | nil =>
    rw [mapOpt] at h
    cases h
    simp
  | cons x rest ih =>
    rw [mapOpt] at h
    split at h
    · cases h
      intro b hb
      rcases List.mem_cons.mp hb with rfl | hmem
      · exact ⟨x, by simp, by assumption⟩
      · obtain ⟨a, ha, hfa⟩ := ih (by assumption) b hmem
        exact ⟨a, by simp [ha], hfa⟩
    · exact absurd h (by simp)

theorem roundEven_ratCast (q : ℚ) : roundEven ((q : ℝ)) = roundEven q := by
  have hfr : Int.fract ((q : ℝ)) = ((Int.fract q : ℚ) : ℝ) := by
    rw [Int.fract, Int.fract, Rat.floor_cast]
    push_cast
    ring
  have hcond : (Int.fract ((q : ℝ)) = 1 / 2) ↔ (Int.fract q = 1 / 2) := by
    rw [hfr, show ((1 : ℝ) / 2) = (((1 : ℚ) / 2 : ℚ) : ℝ) by norm_num]
    exact_mod_cast Iff.rfl
  rw [roundEven, roundEven, Rat.floor_cast, Rat.round_cast]
  by_cases h : Int.fract q = 1 / 2
  · rw [if_pos (hcond.mpr h), if_pos h]
  · rw [if_neg (fun hc => h (hcond.mp hc)), if_neg h]

theorem round2_ratCast (q : ℚ) : round2 ((q : ℝ)) = ((round2 q : ℚ) : ℝ) := by
  rw [round2, round2,
    show ((q : ℝ) * 100) = (((q * 100 : ℚ)) : ℝ) by push_cast; ring,
    roundEven_ratCast]
  push_cast
  ring

theorem roundEven_intCast {K : Type} [LinearOrderedField K] [FloorRing K]
    (z : ℤ) : roundEven ((z : K)) = z := by
  rw [roundEven, if_neg, round_intCast]
  rw [Int.fract_intCast]
  norm_num

theorem round2_eq_self {K : Type} [LinearOrderedField K] [FloorRing K]
    {x : K} (hx : ∃ z : ℤ, x * 100 = (z : K)) : round2 x = x := by
  obtain ⟨z, hz⟩ := hx
  rw [round2, hz, roundEven_intCast, ← hz]
  field_simp

theorem scoreEvents_eq_of_nonzero {K : Type} [LinearOrderedField K]
    {event_stats : List (String × LiveEntry K)}
    (h : ∀ p ∈ event_stats, p.2.std_dev ≠ 0) (l : List (String × K)) :
    scoreEvents event_stats l
      = some (l.filterMap (fun p => (event_stats.lookup p.1).map
          (fun st => (p.1, |st.mean - p.2| / st.std_dev * (st.weight : K))))) := by
  induction l with
  | nil => rfl
  | cons p rest ih =>
    cases hl : event_stats.lookup p.1 with
    | none => simp [scoreEvents, hl, ih, List.filterMap_cons]
    | some st =>
      have hst : st.std_dev ≠ 0 := h (p.1, st) (lookup_mem hl)
      simp [scoreEvents, hl, ih, List.filterMap_cons, scoreEvent, hst]

theorem scoreEvents_eq_none {K : Type} [LinearOrderedField K]
    {event_stats : List (String × LiveEntry K)} {l : List (String × K)}
    {p : String × K} (hp : p ∈ l) {st : LiveEntry K}
    (hl : event_stats.lookup p.1 = some st) (h0 : st.std_dev = 0) :
    scoreEvents event_stats l = none := by
  induction l with
  | nil => simp at hp
  | cons q rest ih =>
    rcases List.mem_cons.mp hp with rfl | hmem
    · cases hrest : scoreEvents event_stats rest <;>
        simp [scoreEvents, hl, scoreEvent, h0, hrest]
    · cases hq : event_stats.lookup q.1 with
      | none => simp [scoreEvents, hq, ih hmem]
      | some st2 =>
        cases h2 : scoreEvent st2 q.2 <;>
          simp [scoreEvents, hq, h2, ih hmem]

theorem scoreDay_eq_of_nonzero {K : Type} [LinearOrderedField K]
    {event_stats : List (String × LiveEntry K)}
    (h : ∀ p ∈ event_stats, p.2.std_dev ≠ 0) (threshold : K)
    (rec : DailyRec K) :
    scoreDay event_stats threshold rec
      = some { day := rec.day
               scores := scoresSpec event_stats rec
               total := ((scoresSpec event_stats rec).map Prod.snd).sum
               status :=
                 if ((scoresSpec event_stats rec).map Prod.snd).sum > threshold
                 then Status.Flagged else Status.Okay } := by
  rw [scoreDay, scoreEvents_eq_of_nonzero h]
  rfl

theorem collectVals_length {K : Type} {n : String} {log : List (DailyRec K)}
    {vs : List K} (h : collectVals n log = some vs) :
    vs.length = log.length := by
  induction log generalizing vs with
  | nil =>
    rw [collectVals] at h
    cases h
    rfl
  | cons rec rest ih =>
    rw [collectVals] at h
    split at h
    · cases h
      simp only [List.length_cons]
      rw [ih (by assumption)]
    · exact absurd h (by simp)

theorem collectVals_eq_some {n : String} {log : List (DailyRec ℝ)}
    (h : ∀ rec ∈ log, (rec.values.lookup n).isSome = true) :
    collectVals n log = some (observedColumn n log) := by
  induction log with
  | nil => rfl
  | cons rec rest ih =>
    obtain ⟨v, hv⟩ := Option.isSome_iff_exists.mp (h rec (by simp))
    rw [collectVals, hv, ih (fun r hr => h r (by simp [hr]))]
    simp [observedColumn, hv]

/-- The stream 0, 2, 4, ... used as both raw pools in the concrete generator
runs below. -/
def stepBy2 : ℕ → ℤ := fun i => 2 * i

/-- Baseline for the C6 counterexample: one continuous event A with
mean 1.234 (three decimal places) and std dev 0. -/
def bsC6 : List (String × BaseEntry) :=
  [("A", { mean := 1234/1000, std_dev := 0, minv := some 0, maxv := some 10,
           weight := 1, typ := EType.C })]

/-- Baseline for the C6 witness: one continuous event A with mean 5
(exactly representable after rounding to 2 decimals) and std dev 0. -/
def bsC6w : List (String × BaseEntry) :=
  [("A", { mean := 5, std_dev := 0, minv := some 0, maxv := some 10,
           weight := 1, typ := EType.C })]

/-- Baseline for the C9 bounds run: one continuous event A with mean 5,
std dev 10 and configured bounds [0, 10]. -/
def bsC9 : List (String × BaseEntry) :=
  [("A", { mean := 5, std_dev := 10, minv := some 0, maxv := some 10,
           weight := 1, typ := EType.C })]

/-- The event log a 3-day run on bsC9 with raw pools 0, 2, 4 produces:
z-scores -1, 0, 1 mapped to values -5, 5, 15 - the day 3 value 15 exceeds
the configured max 10. -/
def logC9 : List (DailyRec ℝ) :=
  [{ day := 1, values := [("A", -5)] },
   { day := 2, values := [("A", 5)] },
   { day := 3, values := [("A", 15)] }]

/-- Unconditional form of get_mean_std on a long-enough list. -/
theorem get_mean_std_pair {vals : List ℚ} (h : 2 ≤ vals.length) :
    get_mean_std vals
      = some (listMean vals, Real.sqrt ((sampleVar vals : ℚ) : ℝ)) := by
  rw [get_mean_std, if_pos h]

/-- Updating only the bounds of a baseline entry does not change the value
the generator computes for it. -/
theorem eventValue_update_bounds (e : BaseEntry) (a b : Option ℚ)
    (cont_mean : ℚ) (cont_std : ℝ) (disc_mean : ℚ) (disc_std : ℝ)
    (rawc rawd : ℚ) :
    eventValue { e with minv := a, maxv := b } cont_mean cont_std
        disc_mean disc_std rawc rawd
      = eventValue e cont_mean cont_std disc_mean disc_std rawc rawd := rfl

/-
Claim theorems.
-/

/-- C5: the claim says the validator checks a continuous event's mean against
[min, max] only when both bounds are actually specified, and that an event
with an absent bound is never reported out of range merely because absence
was encoded as zero.  The code contradicts this (and its own docstrings):
parse_events stores 0 for an empty bound field, so the None-guard in
validate_consistency never fires, and the continuous event X with
unspecified bounds and mean 5 IS reported out of range against [0, 0]. -/
theorem C5_unspecified_bounds_reported :
    validate_consistency eventsX statsX
      = ["X: mean is outside of specified min/max range."] := by
  decide

/-- C4 counterexample: with catalog {A, B} and statistics {A, C}, the claim
says B and C are both dropped with warnings.  The Baseline indeed contains
only A, but the builder prints a warning only for C (a stats-only name);
B (a catalog-only name) is dropped silently, refuting the claim. -/
theorem C4_builder_warning_counterexample :
    (cal_basestats eventsAB statsAC).map Prod.fst = ["A"]
    ∧ cal_basestats_warnings eventsAB statsAC
        = ["Warning: C found in stats but not in events."] := by
  constructor <;> decide

/-- C4 amended: a Baseline entry exists for a name iff the name is in both
the events file and the stats file (names in only one source are never
merged); the builder warns exactly about the stats-only names, while
catalog-only names are dropped silently. -/
theorem C4_baseline_membership :
    (∀ (events : List (String × EventDef)) (stats : List (String × StatEntry))
        (n : String),
        n ∈ (cal_basestats events stats).map Prod.fst ↔
          (n ∈ stats.map Prod.fst ∧ n ∈ events.map Prod.fst))
    ∧ (∀ (events : List (String × EventDef))
        (stats : List (String × StatEntry)),
        cal_basestats_warnings events stats
          = (stats.filter (fun p => decide (p.1 ∉ events.map Prod.fst))).map
              (fun p => "Warning: " ++ p.1 ++ " found in stats but not in events.")) := by
  constructor
  · intro events stats n
    induction stats with
    | nil => simp [cal_basestats]
    | cons p rest ih =>
      cases hl : events.lookup p.1 with
      | none =>
        have hnm : p.1 ∉ events.map Prod.fst := (lookup_eq_none_iff events p.1).mp hl
        simp only [cal_basestats, List.filterMap_cons, hl] at ih ⊢
        simp only [List.map_cons, List.mem_cons]
        rw [ih]
        constructor
        · tauto
        · rintro ⟨rfl | hmem, hev⟩
          · exact absurd hev hnm
          · exact ⟨hmem, hev⟩
      | some e =>
        have hmm : p.1 ∈ events.map Prod.fst :=
          (lookup_isSome_iff events p.1).mp (by simp [hl])
        simp only [cal_basestats, List.filterMap_cons, hl] at ih ⊢
        simp only [List.map_cons, List.mem_cons]
        rw [ih]
        constructor
        · rintro (rfl | ⟨hs, hev⟩)
          · exact ⟨Or.inl rfl, hmm⟩
          · exact ⟨Or.inr hs, hev⟩
        · rintro ⟨rfl | hmem, hev⟩
          · exact Or.inl rfl
          · exact Or.inr ⟨hmem, hev⟩
  · intro events stats
    induction stats with
    | nil => rfl
    | cons p rest ih =>
      cases hl : events.lookup p.1 with
      | none =>
        have hnm : p.1 ∉ events.map Prod.fst := (lookup_eq_none_iff events p.1).mp hl
        simp only [cal_basestats_warnings, List.filterMap_cons, hl,
          List.filter_cons, hnm, decide_not] at ih ⊢
        simp [ih, hnm]
      | some e =>
        have hmm : p.1 ∈ events.map Prod.fst :=
          (lookup_isSome_iff events p.1).mp (by simp [hl])
        simp only [cal_basestats_warnings, List.filterMap_cons, hl] at ih ⊢
        simp [ih, hmm]

/-- C2: the BaselineBuilder threshold is 2 times the sum of the weights of
the merged events, is independent of the iteration order of the two input
dictionaries (keys of a dict are unique, hence the Nodup hypothesis on the
events keys), and an empty overlap yields an empty Baseline with
threshold 0.  The builder and cal_threshold are total functions, so they
never raise on any (in particular any non-empty valid) overlap. -/
theorem C2_threshold_formula :
    (∀ (events : List (String × EventDef)) (stats : List (String × StatEntry)),
        cal_threshold BaseEntry.weight (cal_basestats events stats)
          = 2 * ((cal_basestats events stats).map (fun p => p.2.weight)).sum)
    ∧ (∀ (events₁ events₂ : List (String × EventDef))
        (stats₁ stats₂ : List (String × StatEntry)),
        events₁.Perm events₂ → stats₁.Perm stats₂ →
        (events₁.map Prod.fst).Nodup →
        cal_threshold BaseEntry.weight (cal_basestats events₂ stats₂)
          = cal_threshold BaseEntry.weight (cal_basestats events₁ stats₁))
    ∧ (∀ (events : List (String × EventDef)) (stats : List (String × StatEntry)),
        (∀ p ∈ stats, events.lookup p.1 = none) →
        cal_basestats events stats = [] ∧
        cal_threshold BaseEntry.weight (cal_basestats events stats) = 0) := by
  have hthr : ∀ (events : List (String × EventDef))
      (stats : List (String × StatEntry)),
      cal_threshold BaseEntry.weight (cal_basestats events stats)
        = 2 * ((cal_basestats events stats).map (fun p => p.2.weight)).sum := by
    intro events stats
    rw [cal_threshold, foldl_add_eq_sum, zero_add, mul_comm]
  have hw : ∀ (events : List (String × EventDef))
      (stats : List (String × StatEntry)),
      (cal_basestats events stats).map (fun p => p.2.weight)
        = stats.filterMap (fun p => (events.lookup p.1).map EventDef.weight) := by
    intro events stats
    induction stats with
    | nil => rfl
    | cons p rest ih =>
      cases hl : events.lookup p.1 with
      | none => simp [cal_basestats, List.filterMap_cons, hl] at ih ⊢; exact ih
      | some e => simp [cal_basestats, List.filterMap_cons, hl] at ih ⊢; exact ih
  refine ⟨hthr, ?_, ?_⟩
  · intro events₁ events₂ stats₁ stats₂ he hs hnd
    rw [hthr, hthr, hw, hw]
    have hfun : (fun (p : String × StatEntry) =>
        (events₂.lookup p.1).map EventDef.weight)
        = (fun p => (events₁.lookup p.1).map EventDef.weight) := by
      funext p
      rw [lookup_eq_of_perm he hnd]
    rw [hfun]
    exact congrArg (2 * ·) ((hs.symm.filterMap _).sum_eq)
  · intro events stats h
    have hb : cal_basestats events stats = [] := by
      rw [cal_basestats, List.filterMap_eq_nil_iff]
      intro p hp
      rw [h p hp]
    exact ⟨hb, by rw [hb]; rfl⟩

/-- C2 witness: the threshold of the merged catalog {A, B} with statistics
{A, C} is 2 (only A merges, weight 1); reversing the iteration order of both
dictionaries leaves the threshold unchanged; a disjoint pair produces an
empty Baseline and threshold 0. -/
theorem C2_threshold_formula_witness :
    cal_threshold BaseEntry.weight (cal_basestats eventsAB statsAC)
      = 2 * ((cal_basestats eventsAB statsAC).map (fun p => p.2.weight)).sum
    ∧ cal_threshold BaseEntry.weight
        (cal_basestats [("B", evDefB), ("A", evDefA)] [("C", stC), ("A", stA)])
        = cal_threshold BaseEntry.weight (cal_basestats eventsAB statsAC)
    ∧ (cal_basestats eventsAB [("C", stC)] = [] ∧
        cal_threshold BaseEntry.weight (cal_basestats eventsAB [("C", stC)]) = 0) :=
  ⟨C2_threshold_formula.1 eventsAB statsAC,
   C2_threshold_formula.2.1 eventsAB [("B", evDefB), ("A", evDefA)]
     statsAC [("C", stC), ("A", stA)] (by decide) (by decide) (by decide),
   C2_threshold_formula.2.2 eventsAB [("C", stC)] (by decide)⟩

/-- C3: a scored day is Flagged iff its total anomaly score strictly exceeds
the threshold, and Okay (the status the specification calls Normal) iff it
does not - so a total exactly equal to the threshold is Okay.  In the spec 8
scenario (source A: mean 5, std dev 1, weight 1; threshold
2 = cal_threshold statsA), the record {Day 1, A 8} scores 3 and is Flagged
and the record {Day 1, A 6} scores 1 and is Okay. -/
theorem C3_flagged_iff_total_gt_threshold :
    (∀ (K : Type) [LinearOrderedField K] (event_log : List (DailyRec K))
        (event_stats : List (String × LiveEntry K)) (threshold : K)
        (out : List (AnomalyRec K)),
        cal_dailycounter event_log event_stats threshold = some out →
        ∀ a ∈ out,
          (a.status = Status.Flagged ↔ a.total > threshold)
          ∧ (a.status = Status.Okay ↔ ¬ a.total > threshold))
    ∧ cal_threshold LiveEntry.weight statsA = 2
    ∧ cal_dailycounter [rec8] statsA (2 : ℚ) = some [anomaly8]
    ∧ anomaly8.total = 3 ∧ anomaly8.status = Status.Flagged
    ∧ cal_dailycounter [rec6] statsA (2 : ℚ) = some [anomaly6]
    ∧ anomaly6.total = 1 ∧ anomaly6.status = Status.Okay := by
  refine ⟨?_, by decide, ?_, by decide, by decide, ?_, by decide, by decide⟩
  case refine_2 =>
    norm_num [cal_dailycounter, mapOpt, scoreDay, scoreEvents, scoreEvent,
      statsA, liveA, rec8, anomaly8, List.lookup]
  case refine_3 =>
    norm_num [cal_dailycounter, mapOpt, scoreDay, scoreEvents, scoreEvent,
      statsA, liveA, rec6, anomaly6, List.lookup]
  intro K _ event_log event_stats threshold out hout a ha
  obtain ⟨rec, _, hrec⟩ := mapOpt_mem hout a ha
  rw [scoreDay] at hrec
  split at hrec
  · exact absurd hrec (by simp)
  · cases hrec
    by_cases hgt : (List.map Prod.snd (by assumption : List (String × K))).sum > threshold
    · constructor <;> constructor <;> simp_all
    · constructor <;> constructor <;> simp_all

/-- C3 witness: the iff of C3 instantiated on the concrete Flagged scenario
record, with the scoring hypothesis discharged by the scenario conjunct. -/
theorem C3_flagged_iff_witness :
    (anomaly8.status = Status.Flagged ↔ anomaly8.total > (2 : ℚ))
    ∧ (anomaly8.status = Status.Okay ↔ ¬ anomaly8.total > (2 : ℚ)) :=
  C3_flagged_iff_total_gt_threshold.1 ℚ [rec8] statsA 2 [anomaly8]
    C3_flagged_iff_total_gt_threshold.2.2.1 anomaly8 (by simp)

/-- C1 counterexample: scoring the record {Day 1, A 6} against the source
{A: mean 5, stdDev 0, weight 1} does NOT return a per-event score of 0 as the
claim states: cal_dailycounter has no stdDev == 0 guard (the guard at
IDS.py line 321 is in the generator print side channel), so the score
expression divides by zero and the call raises ZeroDivisionError (none). -/
theorem C1_zero_stddev_counterexample :
    cal_dailycounter [rec6] statsZ (2 : ℚ) = none := by
  norm_num [cal_dailycounter, mapOpt, scoreDay, scoreEvents, scoreEvent,
    statsZ, liveZ, rec6, List.lookup]

/-- C1 amended: when every entry of the statistics source has a nonzero
stdDev, the per-event score is abs(statMean - dailyValue) / statStdDev *
weight and the day total is the sum of the per-event scores; but when a
scored event has stdDev 0 the scorer raises ZeroDivisionError (none) instead
of scoring it 0. -/
theorem C1_score_formula :
    (∀ (K : Type) [LinearOrderedField K] (event_log : List (DailyRec K))
        (event_stats : List (String × LiveEntry K)) (threshold : K),
        (∀ p ∈ event_stats, p.2.std_dev ≠ 0) →
        cal_dailycounter event_log event_stats threshold
          = some (event_log.map (fun rec =>
              { day := rec.day
                scores := scoresSpec event_stats rec
                total := ((scoresSpec event_stats rec).map Prod.snd).sum
                status :=
                  if ((scoresSpec event_stats rec).map Prod.snd).sum > threshold
                  then Status.Flagged else Status.Okay })))
    ∧ (∀ (K : Type) [LinearOrderedField K] (event_log : List (DailyRec K))
        (event_stats : List (String × LiveEntry K)) (threshold : K)
        (rec : DailyRec K), rec ∈ event_log →
        (∃ p ∈ rec.values, p.1 ≠ "Day" ∧
          ∃ st, event_stats.lookup p.1 = some st ∧ st.std_dev = 0) →
        cal_dailycounter event_log event_stats threshold = none) := by
  constructor
  · intro K _ event_log event_stats threshold h
    exact mapOpt_eq_some_of_forall
      (fun rec _ => scoreDay_eq_of_nonzero h threshold rec)
  · rintro K _ event_log event_stats threshold rec hrec
      ⟨p, hp, hday, st, hst, h0⟩
    refine mapOpt_eq_none_of_mem hrec ?_
    rw [scoreDay]
    have hnone :
        scoreEvents event_stats
          (rec.values.filter (fun p => p.1 ≠ "Day")) = none := by
      refine scoreEvents_eq_none (p := p) ?_ hst h0
      exact List.mem_filter.mpr ⟨hp, by simp [hday]⟩
    rw [hnone]

/-- C1 witness: the nonzero-stdDev characterization applied to the record
{Day 2, B 9} against {B: mean 4, stdDev 2, weight 3}, and the failure branch
applied to the same record against {B: mean 4, stdDev 0, weight 3}. -/
theorem C1_score_formula_witness :
    cal_dailycounter [recB] statsB (10 : ℚ)
      = some ([recB].map (fun rec =>
          { day := rec.day
            scores := scoresSpec statsB rec
            total := ((scoresSpec statsB rec).map Prod.snd).sum
            status :=
              if ((scoresSpec statsB rec).map Prod.snd).sum > (10 : ℚ)
              then Status.Flagged else Status.Okay }))
    ∧ cal_dailycounter [recB] statsB0 (10 : ℚ) = none :=
  ⟨C1_score_formula.1 ℚ [recB] statsB 10 (by decide),
   C1_score_formula.2 ℚ [recB] statsB0 10 recB (by simp)
     ⟨("B", 9), by simp [recB], by simp,
      { mean := 4, std_dev := 0, weight := 3 }, by decide, rfl⟩⟩

/-- C7: with totalDays 1 (or 0) the generator fails before producing any
value - statistics.stdev of a single-sample pool raises StatisticsError,
the error kind the specification names InsufficientSampleSize - and the
recomputer likewise fails on fewer than 2 day records; neither produces a
number (in particular neither silently produces NaN or Infinity). -/
theorem C7_insufficient_sample_size :
    (∀ (basestats : List (String × BaseEntry)) (randD randC : ℕ → ℤ)
        (days : ℕ), days ≤ 1 →
        generate_event_data basestats randD randC days = none)
    ∧ (∀ (event_log : List (DailyRec ℝ))
        (basestats : List (String × BaseEntry)), event_log.length ≤ 1 →
        analysis_events event_log basestats = none) := by
  constructor
  · intro basestats randD randC days hdays
    rw [generate_event_data]
    have hlen : ¬ 2 ≤ ((List.range days).map
        (fun i => ((randC i : ℤ) : ℚ))).length := by
      simpa using by omega
    rw [get_mean_std, if_neg hlen]
  · intro event_log basestats hlen
    rw [analysis_events]
    split
    · rfl
    · next cols hcols =>
      split
      · rfl
      · next event_stats hmap =>
        exfalso
        have h5 : cols.length = 5 := by
          rw [mapOpt_length hcols]
          rfl
        have hex : ∃ c, c ∈ cols := by
          cases cols with
          | nil => simp at h5
          | cons c rest => exact ⟨c, by simp⟩
        obtain ⟨c, hc⟩ := hex
        obtain ⟨n, hn, hcn⟩ := mapOpt_mem hcols c hc
        obtain ⟨vs, hvs, hcv⟩ := Option.map_eq_some'.mp hcn
        have hvlen : ¬ 2 ≤ c.2.length := by
          rw [← hcv]
          show ¬ 2 ≤ vs.length
          rw [collectVals_length hvs]
          omega
        have hnone : mapOpt (fun c =>
            if 2 ≤ c.2.length then
              match basestats.lookup c.1 with
              | some b =>
                some (c.1,
                  { mean := listMean c.2
                    std_dev := round2 (Real.sqrt (sampleVar c.2))
                    weight := b.weight })
              | none => none
            else (none : Option (String × LiveEntry ℝ))) cols = none :=
          mapOpt_eq_none_of_mem hc (if_neg hvlen)
        rw [hnone] at hmap
        cases hmap

/-- C7 witness: a one-day run of the generator on an empty baseline fails,
and the recomputer fails on a single day record. -/
theorem C7_insufficient_sample_size_witness :
    generate_event_data [] (fun _ => 0) (fun _ => 0) 1 = none
    ∧ analysis_events [{ day := 1, values := [] }] [] = none :=
  ⟨C7_insufficient_sample_size.1 [] (fun _ => 0) (fun _ => 0) 1 (by decide),
   C7_insufficient_sample_size.2 [{ day := 1, values := [] }] [] (by decide)⟩

/-- C10 supporting theorem: the generator is a pure function of the raw
draws actually consumed - two runs whose random streams agree on the first
totalDays draws of each pool produce identical DailyRecord sequences.  The
nondeterminism of the source lies wholly in where those draws come from:
random.randint on the implicitly seeded module-level generator, which the
program never seeds (the claimed explicitly seedable source does not exist
in the code). -/
theorem C10_deterministic_given_draws :
    ∀ (basestats : List (String × BaseEntry)) (days : ℕ)
      (rd₁ rd₂ rc₁ rc₂ : ℕ → ℤ),
      (∀ i < days, rd₁ i = rd₂ i) → (∀ i < days, rc₁ i = rc₂ i) →
      generate_event_data basestats rd₁ rc₁ days
        = generate_event_data basestats rd₂ rc₂ days := by
  intro basestats days rd₁ rd₂ rc₁ rc₂ hd hc
  have h1 : (List.range days).map (fun i => ((rd₁ i : ℤ) : ℚ))
      = (List.range days).map (fun i => ((rd₂ i : ℤ) : ℚ)) := by
    apply List.map_congr_left
    intro i hi
    rw [hd i (List.mem_range.mp hi)]
  have h2 : (List.range days).map (fun i => ((rc₁ i : ℤ) : ℚ))
      = (List.range days).map (fun i => ((rc₂ i : ℤ) : ℚ)) := by
    apply List.map_congr_left
    intro i hi
    rw [hc i (List.mem_range.mp hi)]
  simp only [generate_event_data]
  rw [h1, h2]

/-- C10 witness: two streams that differ from draw 2 on but agree on draws
0 and 1 give identical 2-day runs. -/
theorem C10_deterministic_given_draws_witness :
    generate_event_data bsC9 stepBy2 stepBy2 2
      = generate_event_data bsC9
          (fun i => if i < 2 then stepBy2 i else 99)
          (fun i => if i < 2 then stepBy2 i else 77) 2 :=
  C10_deterministic_given_draws bsC9 2 stepBy2 _ stepBy2 _
    (by decide) (by decide)

/-- C9: generation applies no clamping - the Min/Max fields of the baseline
are read but never used, so arbitrarily rewriting every entry's bounds
leaves the generated log unchanged; and in the concrete 3-day run on bsC9
(bounds [0, 10]) the day 3 value of A is 15, strictly above the configured
max 10. -/
theorem C9_no_clamping :
    (∀ (basestats : List (String × BaseEntry)) (f g : String → Option ℚ)
        (randD randC : ℕ → ℤ) (days : ℕ),
        generate_event_data
          (basestats.map (fun p => (p.1, { p.2 with minv := f p.1, maxv := g p.1 })))
          randD randC days
          = generate_event_data basestats randD randC days)
    ∧ generate_event_data bsC9 stepBy2 stepBy2 3 = some logC9
    ∧ ((bsC9.lookup "A").map BaseEntry.maxv = some (some 10))
    ∧ ((logC9.getD 2 { day := 0, values := [] }).values.lookup "A"
        = some (15 : ℝ))
    ∧ (((10 : ℚ) : ℝ) < 15) := by
  refine ⟨?_, ?_, by decide, by norm_num [logC9, List.lookup], by norm_num⟩
  · intro basestats f g randD randC days
    simp only [generate_event_data]
    cases get_mean_std ((List.range days).map (fun i => ((randC i : ℤ) : ℚ))) with
    | none => rfl
    | some mc =>
      cases get_mean_std ((List.range days).map (fun i => ((randD i : ℤ) : ℚ))) with
      | none => rfl
      | some md =>
        obtain ⟨cm, cs⟩ := mc
        obtain ⟨dm, ds⟩ := md
        simp only [List.map_map]
        rfl
  · have hr3 : List.range 3 = [0, 1, 2] := rfl
    have hpool : (List.range 3).map (fun i => ((stepBy2 i : ℤ) : ℚ))
        = [0, 2, 4] := by
      rw [hr3]
      norm_num [stepBy2]
    have hvar : sampleVar ([0, 2, 4] : List ℚ) = 4 := by
      norm_num [sampleVar, listMean]
    have hmean : listMean ([0, 2, 4] : List ℚ) = 2 := by
      norm_num [listMean]
    have hsqrt : Real.sqrt (((4 : ℚ) : ℝ)) = 2 := by
      rw [show (((4 : ℚ) : ℝ)) = (2 : ℝ) ^ 2 by norm_num]
      exact Real.sqrt_sq (by norm_num)
    simp only [generate_event_data]
    rw [hpool, get_mean_std_pair (by norm_num), hvar, hmean, hsqrt, hr3]
    simp only [List.map_cons, List.map_nil, bsC6, bsC9, eventValue, logC9]
    norm_num [round2_eq_self (x := (-5 : ℝ)) ⟨-500, by norm_num⟩,
      round2_eq_self (x := (5 : ℝ)) ⟨500, by norm_num⟩,
      round2_eq_self (x := (15 : ℝ)) ⟨1500, by norm_num⟩]

/-- C6 counterexample: for the std-dev-0 continuous event A with configured
mean 1.234, every generated value is round(1.234, 2) = 1.23, which is NOT
the configured mean: the z-transform does degenerate to the constant mean,
but the generator then rounds continuous values to 2 decimal places. -/
theorem C6_rounded_mean_counterexample :
    generate_event_data bsC6 stepBy2 stepBy2 2
      = some [{ day := 1, values := [("A", (123 / 100 : ℝ))] },
              { day := 2, values := [("A", (123 / 100 : ℝ))] }]
    ∧ ((123 / 100 : ℝ) ≠ (((1234 / 1000 : ℚ) : ℝ))) := by
  constructor
  · have hr2 : List.range 2 = [0, 1] := rfl
    have hpool : (List.range 2).map (fun i => ((stepBy2 i : ℤ) : ℚ))
        = [0, 2] := by
      rw [hr2]
      norm_num [stepBy2]
    have hround : round2 ((617 : ℚ) / 500) = 123 / 100 := by
      have hf : ⌊(617 : ℚ) / 500 * 100⌋ = 123 := by
        norm_num [Int.floor_eq_iff]
      rw [round2, roundEven, if_neg, round_eq]
      · norm_num [Int.floor_eq_iff]
      · rw [Int.fract, hf]
        norm_num
    simp only [generate_event_data]
    rw [hpool, get_mean_std_pair (by norm_num), hr2]
    simp only [List.map_cons, List.map_nil, bsC6, eventValue]
    norm_num [round2_ratCast]
    rw [show ((617 : ℝ) / 500) = (((617 / 500 : ℚ)) : ℝ) by norm_num,
      round2_ratCast, hround]
    norm_num
  · norm_num

/-- C6 amended: for a baseline event with stdDev 0, every value the
generator produces for it on every day is round(mean, 2) when the event is
continuous and round(mean) when it is discrete - thus exactly the
configured mean whenever that mean is representable at the rounded
precision (mean*100 integral for continuous, mean integral for discrete),
but not in general. -/
theorem C6_stddev_zero_rounded_mean :
    ∀ (basestats : List (String × BaseEntry)) (randD randC : ℕ → ℤ)
      (days : ℕ) (event_log : List (DailyRec ℝ)),
      generate_event_data basestats randD randC days = some event_log →
      ∀ rec ∈ event_log, ∀ (n : String) (e : BaseEntry),
        basestats.lookup n = some e → e.std_dev = 0 →
        ∃ v, rec.values.lookup n = some v
          ∧ (e.typ = EType.C →
              v = round2 ((e.mean : ℚ) : ℝ)
              ∧ ((∃ z : ℤ, e.mean * 100 = (z : ℚ)) → v = ((e.mean : ℚ) : ℝ)))
          ∧ (e.typ = EType.D →
              v = ((roundEven ((e.mean : ℚ) : ℝ) : ℤ) : ℝ)
              ∧ ((∃ z : ℤ, e.mean = (z : ℚ)) → v = ((e.mean : ℚ) : ℝ))) := by
  intro basestats randD randC days event_log hgen rec hrec n e hn h0
  simp only [generate_event_data] at hgen
  split at hgen
  case h_2 => cases hgen
  case h_1 cont_mean cont_std disc_mean disc_std heqc heqd =>
    rw [Option.some.injEq] at hgen
    rw [← hgen] at hrec
    obtain ⟨d, hd, hrecd⟩ := List.mem_map.mp hrec
    have hval : rec.values.lookup n
        = (basestats.lookup n).map (fun e =>
            eventValue e cont_mean cont_std disc_mean disc_std
              (((List.range days).map (fun i => ((randC i : ℤ) : ℚ))).getD d 0)
              (((List.range days).map (fun i => ((randD i : ℤ) : ℚ))).getD d 0)) := by
      rw [← hrecd]
      show (basestats.map (fun p => (p.1,
        eventValue p.2 cont_mean cont_std disc_mean disc_std
          (((List.range days).map (fun i => ((randC i : ℤ) : ℚ))).getD d 0)
          (((List.range days).map (fun i => ((randD i : ℤ) : ℚ))).getD d 0)))).lookup n
        = _
      exact lookup_map_pair (fun e =>
        eventValue e cont_mean cont_std disc_mean disc_std
          (((List.range days).map (fun i => ((randC i : ℤ) : ℚ))).getD d 0)
          (((List.range days).map (fun i => ((randD i : ℤ) : ℚ))).getD d 0))
        basestats n
    rw [hn, Option.map_some'] at hval
    refine ⟨_, hval, ?_, ?_⟩
    · intro hC
      have hv : eventValue e cont_mean cont_std disc_mean disc_std
          (((List.range days).map (fun i => ((randC i : ℤ) : ℚ))).getD d 0)
          (((List.range days).map (fun i => ((randD i : ℤ) : ℚ))).getD d 0)
            = round2 ((e.mean : ℚ) : ℝ) := by
        rw [eventValue, if_pos hC, h0]
        simp
      refine ⟨hv, fun hex => ?_⟩
      rw [hv]
      refine round2_eq_self ?_
      obtain ⟨z, hz⟩ := hex
      exact ⟨z, by exact_mod_cast congrArg (fun q => ((q : ℚ) : ℝ)) hz⟩
    · intro hD
      have hv : eventValue e cont_mean cont_std disc_mean disc_std
          (((List.range days).map (fun i => ((randC i : ℤ) : ℚ))).getD d 0)
          (((List.range days).map (fun i => ((randD i : ℤ) : ℚ))).getD d 0)
            = ((roundEven ((e.mean : ℚ) : ℝ) : ℤ) : ℝ) := by
        rw [eventValue, if_neg (by simp [hD]), h0]
        simp
      refine ⟨hv, fun hex => ?_⟩
      rw [hv]
      obtain ⟨z, hz⟩ := hex
      rw [hz]
      rw [show (((z : ℚ) : ℚ) : ℝ) = ((z : ℤ) : ℝ) by push_cast; ring,
        roundEven_intCast]

/-- Concrete 2-day run on the std-dev-0, mean-5 baseline: every value of A
is exactly 5 (5 is representable at 2 decimals). -/
theorem generate_bsC6w_eval :
    generate_event_data bsC6w stepBy2 stepBy2 2
      = some [{ day := 1, values := [("A", (5 : ℝ))] },
              { day := 2, values := [("A", (5 : ℝ))] }] := by
  have hr2 : List.range 2 = [0, 1] := rfl
  have hpool : (List.range 2).map (fun i => ((stepBy2 i : ℤ) : ℚ))
      = [0, 2] := by
    rw [hr2]
    norm_num [stepBy2]
  simp only [generate_event_data]
  rw [hpool, get_mean_std_pair (by norm_num), hr2]
  simp only [List.map_cons, List.map_nil, bsC6w, eventValue]
  norm_num [round2_eq_self (x := (5 : ℝ)) ⟨500, by norm_num⟩]

/-- C6 witness: the amended statement applied to the day-1 record of the
concrete run of generate_bsC6w_eval, all hypotheses discharged there. -/
theorem C6_stddev_zero_witness :
    ∃ v, (({ day := 1, values := [("A", (5 : ℝ))] } : DailyRec ℝ)).values.lookup "A"
          = some v
      ∧ (EType.C = EType.C →
          v = round2 (((5 : ℚ) : ℝ))
          ∧ ((∃ z : ℤ, (5 : ℚ) * 100 = (z : ℚ)) → v = (((5 : ℚ)) : ℝ)))
      ∧ (EType.C = EType.D →
          v = ((roundEven (((5 : ℚ) : ℝ)) : ℤ) : ℝ)
          ∧ ((∃ z : ℤ, (5 : ℚ) = (z : ℚ)) → v = (((5 : ℚ)) : ℝ))) :=
  C6_stddev_zero_rounded_mean bsC6w stepBy2 stepBy2 2 _ generate_bsC6w_eval
    { day := 1, values := [("A", (5 : ℝ))] } (by simp) "A"
    { mean := 5, std_dev := 0, minv := some 0, maxv := some 10,
      weight := 1, typ := EType.C } rfl rfl

/-- Baseline with the single event A used for the C8 counterexample. -/
def bsA8 : List (String × BaseEntry) :=
  [("A", { mean := 5, std_dev := 1, minv := some 0, maxv := some 10,
           weight := 1, typ := EType.C })]

/-- C8 counterexample: a 2-day sequence generated from the Baseline {A}
contains only the event A, yet analysis_events raises KeyError (none) on it
instead of returning a mean/stdDev pair for A: the recomputer reads the five
hard-coded names Logins/Time online/Emails sent/Emails opened/Emails deleted,
so it does not work for an arbitrary event set. -/
theorem C8_arbitrary_events_counterexample :
    (generate_event_data bsA8 stepBy2 stepBy2 2).map
        (fun event_log => analysis_events event_log bsA8)
      = some none := by
  have hr2 : List.range 2 = [0, 1] := rfl
  have hpool : (List.range 2).map (fun i => ((stepBy2 i : ℤ) : ℚ))
      = [0, 2] := by
    rw [hr2]
    norm_num [stepBy2]
  simp only [generate_event_data]
  rw [hpool, get_mean_std_pair (by norm_num), hr2]
  simp [analysis_events, fixed_event_names, mapOpt, collectVals, bsA8,
    List.lookup]

/-- C8 amended: analysis_events works only for the five hard-coded event
names: when every record contains all five names, the log has at least 2
days, and the baseline contains the five names, it returns per-event
statistics for exactly those five events - the arithmetic mean of the
observed column and the rounded SAMPLE (n-1 denominator) standard deviation,
not population statistics - together with the per-day totals. -/
theorem C8_fixed_events_sample_stats :
    ∀ (event_log : List (DailyRec ℝ)) (basestats : List (String × BaseEntry)),
      2 ≤ event_log.length →
      (∀ rec ∈ event_log, ∀ n ∈ fixed_event_names,
        (rec.values.lookup n).isSome = true) →
      (∀ n ∈ fixed_event_names, (basestats.lookup n).isSome = true) →
      analysis_events event_log basestats
        = some (fixed_event_names.map (fun n =>
            (n, { mean := listMean (observedColumn n event_log)
                  std_dev :=
                    round2 (Real.sqrt (sampleVar (observedColumn n event_log)))
                  weight :=
                    ((basestats.lookup n).map BaseEntry.weight).getD 0 })),
          event_log.map (fun rec =>
            (rec.day,
              ((rec.values.filter (fun p => p.1 ≠ "Day")).map Prod.snd).sum))) := by
  intro event_log basestats hlen hrecs hbs
  have hcols : mapOpt (fun n =>
      (collectVals n event_log).map (fun vs => (n, vs))) fixed_event_names
      = some (fixed_event_names.map
          (fun n => (n, observedColumn n event_log))) :=
    mapOpt_eq_some_of_forall (fun n hn => by
      rw [collectVals_eq_some (fun rec hrec => hrecs rec hrec n hn),
        Option.map_some'])
  have hstats : mapOpt (fun c =>
      if 2 ≤ c.2.length then
        match basestats.lookup c.1 with
        | some b =>
          some (c.1,
            { mean := listMean c.2
              std_dev := round2 (Real.sqrt (sampleVar c.2))
              weight := b.weight })
        | none => none
      else (none : Option (String × LiveEntry ℝ)))
      (fixed_event_names.map (fun n => (n, observedColumn n event_log)))
      = some ((fixed_event_names.map
          (fun n => (n, observedColumn n event_log))).map
          (fun c => (c.1,
            { mean := listMean c.2
              std_dev := round2 (Real.sqrt (sampleVar c.2))
              weight := ((basestats.lookup c.1).map BaseEntry.weight).getD 0 }))) := by
    refine mapOpt_eq_some_of_forall ?_
    intro c hc
    obtain ⟨n, hn, rfl⟩ := List.mem_map.mp hc
    have hlen2 : 2 ≤ (observedColumn n event_log).length := by
      rw [observedColumn, List.length_map]
      exact hlen
    obtain ⟨b, hb⟩ := Option.isSome_iff_exists.mp (hbs n hn)
    simp only [if_pos hlen2, hb, Option.map_some', Option.getD_some]
  rw [analysis_events]
  split
  · next hnone =>
    rw [hcols] at hnone
    cases hnone
  · next cols hsome =>
    rw [hcols] at hsome
    obtain rfl := (Option.some.inj hsome).symm
    split
    · next hnone2 =>
      rw [hstats] at hnone2
      cases hnone2
    · next event_stats hsome2 =>
      rw [hstats] at hsome2
      obtain rfl := (Option.some.inj hsome2).symm
      simp only [List.map_map]
      rfl

/-- A 2-day log containing exactly the five hard-coded event names. -/
def log5 : List (DailyRec ℝ) :=
  [{ day := 1, values := [("Logins", 1), ("Time online", 2),
      ("Emails sent", 3), ("Emails opened", 4), ("Emails deleted", 5)] },
   { day := 2, values := [("Logins", 3), ("Time online", 4),
      ("Emails sent", 5), ("Emails opened", 6), ("Emails deleted", 7)] }]

/-- A baseline containing the five hard-coded event names. -/
def bs5 : List (String × BaseEntry) :=
  [("Logins",
    { mean := 2, std_dev := 1, minv := some 0, maxv := some 10,
      weight := 1, typ := EType.D }),
   ("Time online",
    { mean := 3, std_dev := 1, minv := some 0, maxv := some 10,
      weight := 2, typ := EType.C }),
   ("Emails sent",
    { mean := 4, std_dev := 1, minv := some 0, maxv := some 10,
      weight := 3, typ := EType.D }),
   ("Emails opened",
    { mean := 5, std_dev := 1, minv := some 0, maxv := some 10,
      weight := 4, typ := EType.D }),
   ("Emails deleted",
    { mean := 6, std_dev := 1, minv := some 0, maxv := some 10,
      weight := 5, typ := EType.D })]

/-- C8 witness: the amended statement applied to the concrete 2-day log
log5 against bs5, all hypotheses discharged there. -/
theorem C8_fixed_events_sample_stats_witness :
    analysis_events log5 bs5
      = some (fixed_event_names.map (fun n =>
          (n, { mean := listMean (observedColumn n log5)
                std_dev :=
                  round2 (Real.sqrt (sampleVar (observedColumn n log5)))
                weight := ((bs5.lookup n).map BaseEntry.weight).getD 0 })),
        log5.map (fun rec =>
          (rec.day,
            ((rec.values.filter (fun p => p.1 ≠ "Day")).map Prod.snd).sum))) :=
  C8_fixed_events_sample_stats log5 bs5 (by decide)
    (by decide) (by decide)

end IDS
